import Mathlib

/-!
Shallow embedding of the scene-and-render pipeline of `src/src/game.cpp`.

Floating-point scalars (`float`) are modelled as rationals `ℚ`; the float
literal `0.05f` is the rational `1/20`, `0.1f` is `1/10`.  `glm` matrices are
stored column-major; here they are `Matrix (Fin 4) (Fin 4) ℚ` in the usual
row/column convention, so every `glm` formula below is the transpose of the
column-major source text of the glm library.  GPU handles (pointers, GL object
names) are modelled as `Nat` identifiers.
-/

namespace Game

/-- `glm::vec3` over exact rationals. -/
structure V3 where
  x : ℚ
  y : ℚ
  z : ℚ
deriving DecidableEq, Repr

/-- `glm::vec4` over exact rationals. -/
structure V4 where
  x : ℚ
  y : ℚ
  z : ℚ
  w : ℚ
deriving DecidableEq, Repr

/-- `glm::vec2` over exact rationals. -/
structure V2 where
  x : ℚ
  y : ℚ
deriving DecidableEq, Repr

/-- `glm::fquat` (w, x, y, z components) over exact rationals. -/
structure Quat where
  w : ℚ
  x : ℚ
  y : ℚ
  z : ℚ
deriving DecidableEq, Repr

@[ext]
theorem V3.ext' {a b : V3} (hx : a.x = b.x) (hy : a.y = b.y) (hz : a.z = b.z) :
    a = b := by
  cases a; cases b; simp_all

instance : Zero V3 := ⟨⟨0, 0, 0⟩⟩

instance : Add V3 := ⟨fun a b => ⟨a.x + b.x, a.y + b.y, a.z + b.z⟩⟩

instance : Sub V3 := ⟨fun a b => ⟨a.x - b.x, a.y - b.y, a.z - b.z⟩⟩

instance : Neg V3 := ⟨fun a => ⟨-a.x, -a.y, -a.z⟩⟩

instance : SMul ℚ V3 := ⟨fun r a => ⟨r * a.x, r * a.y, r * a.z⟩⟩

@[simp] theorem V3.zero_x : (0 : V3).x = 0 := rfl

@[simp] theorem V3.zero_y : (0 : V3).y = 0 := rfl

@[simp] theorem V3.zero_z : (0 : V3).z = 0 := rfl

@[simp] theorem V3.add_x (a b : V3) : (a + b).x = a.x + b.x := rfl

@[simp] theorem V3.add_y (a b : V3) : (a + b).y = a.y + b.y := rfl

@[simp] theorem V3.add_z (a b : V3) : (a + b).z = a.z + b.z := rfl

@[simp] theorem V3.sub_x (a b : V3) : (a - b).x = a.x - b.x := rfl

@[simp] theorem V3.sub_y (a b : V3) : (a - b).y = a.y - b.y := rfl

@[simp] theorem V3.sub_z (a b : V3) : (a - b).z = a.z - b.z := rfl

@[simp] theorem V3.neg_x (a : V3) : (-a).x = -a.x := rfl

@[simp] theorem V3.neg_y (a : V3) : (-a).y = -a.y := rfl

@[simp] theorem V3.neg_z (a : V3) : (-a).z = -a.z := rfl

@[simp] theorem V3.smul_x (r : ℚ) (a : V3) : (r • a).x = r * a.x := rfl

@[simp] theorem V3.smul_y (r : ℚ) (a : V3) : (r • a).y = r * a.y := rfl

@[simp] theorem V3.smul_z (r : ℚ) (a : V3) : (r • a).z = r * a.z := rfl

/-- 4x4 rational matrix, row/column indexed. -/
abbrev Mat4 := Matrix (Fin 4) (Fin 4) ℚ

/-- The component of a `V3` selected by a column index, extended by `dflt`
for the fourth component; helper for writing glm matrices. -/
def V3.comp (v : V3) (j : Fin 4) (dflt : ℚ) : ℚ :=
  if j = 0 then v.x else if j = 1 then v.y else if j = 2 then v.z else dflt

/-- The homogeneous 4x4 translation matrix `T(v)` (identity with `v` in the
last column): the matrix glm builds from a translation vector. -/
def transMat (v : V3) : Mat4 :=
  Matrix.of fun i j => if i = j then 1 else if j = 3 then v.comp i 0 else 0

/-- The homogeneous 4x4 scale matrix `S(v)` (diagonal `v.x, v.y, v.z, 1`). -/
def scaleMat (v : V3) : Mat4 :=
  Matrix.of fun i j => if i = j then v.comp i 1 else 0

namespace glm

/-- `glm::translate(m, v) = m * T(v)`: copies `m` and replaces the last
column by `m[0]*v.x + m[1]*v.y + m[2]*v.z + m[3]` (columns of `m`). -/
def translate (m : Mat4) (v : V3) : Mat4 :=
  Matrix.of fun i j =>
    if j = 3 then m i 0 * v.x + m i 1 * v.y + m i 2 * v.z + m i 3 else m i j

/-- `glm::scale(m, v) = m * S(v)`: scales the first three columns of `m`. -/
def scale (m : Mat4) (v : V3) : Mat4 :=
  Matrix.of fun i j => m i j * V3.comp v j 1

/-- `glm::toMat4` (via glm's `mat3_cast`) of a quaternion, transposed from
glm's column-major text into row/column convention. -/
def toMat4 (q : Quat) : Mat4 :=
  Matrix.of fun i j =>
    if i = 0 then
      if j = 0 then 1 - 2 * (q.y * q.y + q.z * q.z)
      else if j = 1 then 2 * (q.x * q.y - q.w * q.z)
      else if j = 2 then 2 * (q.x * q.z + q.w * q.y)
      else 0
    else if i = 1 then
      if j = 0 then 2 * (q.x * q.y + q.w * q.z)
      else if j = 1 then 1 - 2 * (q.x * q.x + q.z * q.z)
      else if j = 2 then 2 * (q.y * q.z - q.w * q.x)
      else 0
    else if i = 2 then
      if j = 0 then 2 * (q.x * q.z - q.w * q.y)
      else if j = 1 then 2 * (q.y * q.z + q.w * q.x)
      else if j = 2 then 1 - 2 * (q.x * q.x + q.y * q.y)
      else 0
    else
      if j = 3 then 1 else 0

/-- Cross product of two `vec3`s. -/
def cross (a b : V3) : V3 :=
  ⟨a.y * b.z - a.z * b.y, a.z * b.x - a.x * b.z, a.x * b.y - a.y * b.x⟩

/-- glm quaternion-vector rotation `q * v`
(`v + ((uv * q.w) + uuv) * 2` with `uv = cross(q.xyz, v)`,
`uuv = cross(q.xyz, uv)`); `glm::rotate(q, vec4)` applies this to the
xyz part.  The source converts the result back to a `vec3`. -/
def quatRotate (q : Quat) (v : V3) : V3 :=
  let u : V3 := ⟨q.x, q.y, q.z⟩
  let uv := cross u v
  let uuv := cross u uv
  v + (2 : ℚ) • (q.w • uv + uuv)

/-- `glm::inverse` on quaternions: conjugate divided by the squared norm. -/
def quatInverse (q : Quat) : Quat :=
  let d : ℚ := q.w * q.w + q.x * q.x + q.y * q.y + q.z * q.z
  ⟨q.w / d, -q.x / d, -q.y / d, -q.z / d⟩

/-- Hamilton product of quaternions (glm `operator*`). -/
def quatMul (p q : Quat) : Quat :=
  ⟨p.w * q.w - p.x * q.x - p.y * q.y - p.z * q.z,
   p.w * q.x + p.x * q.w + p.y * q.z - p.z * q.y,
   p.w * q.y + p.y * q.w + p.z * q.x - p.x * q.z,
   p.w * q.z + p.z * q.w + p.x * q.y - p.y * q.x⟩

/-- `glm::angleAxis(angle, axis)` for an angle whose half-angle has cosine
`c` and sine `s`; glm does not normalise the axis.  The trigonometric values
are taken as parameters because the source's `±0.5` degree steps have
irrational sine/cosine. -/
def angleAxis (c s : ℚ) (axis : V3) : Quat :=
  ⟨c, s * axis.x, s * axis.y, s * axis.z⟩

/-- `glm::perspective(fovy, aspect, zNear, zFar)` with the precomputed
`tanHalfFovy = tan(fovy / 2)` as first argument (transposed from glm's
column-major text). -/
def perspective (tanHalfFovy aspect zNear zFar : ℚ) : Mat4 :=
  Matrix.of fun i j =>
    if i = 0 then (if j = 0 then 1 / (aspect * tanHalfFovy) else 0)
    else if i = 1 then (if j = 1 then 1 / tanHalfFovy else 0)
    else if i = 2 then
      (if j = 2 then -(zFar + zNear) / (zFar - zNear)
       else if j = 3 then -(2 * zFar * zNear) / (zFar - zNear) else 0)
    else (if j = 2 then -1 else 0)

theorem translate_eq_mul (m : Mat4) (v : V3) :
    translate m v = m * transMat v := by
  ext i j
  fin_cases j <;>
    simp +decide [translate, transMat, Matrix.mul_apply, Fin.sum_univ_four,
      V3.comp]

theorem scale_eq_mul (m : Mat4) (v : V3) :
    scale m v = m * scaleMat v := by
  ext i j
  fin_cases j <;>
    simp +decide [scale, scaleMat, Matrix.mul_apply, Fin.sum_univ_four,
      V3.comp]

theorem scale_one (v : V3) : scale 1 v = scaleMat v := by
  rw [scale_eq_mul, Matrix.one_mul]

end glm

/-- `struct Transform` with the source's default member values. -/
structure TransformM where
  position : V3 := ⟨0, 0, 0⟩
  rotation : Quat := ⟨1, 0, 0, 0⟩
  scale : V3 := ⟨1, 1, 1⟩
deriving DecidableEq, Repr

instance : Inhabited TransformM := ⟨{}⟩

/-- `rotate_m4(mat, quat) = toMat4(quat) * mat` (line 226). -/
def rotate_m4 (mat : Mat4) (quat : Quat) : Mat4 :=
  glm.toMat4 quat * mat

/-- `createModelMatrix(const Transform&)` (line 230):
`glm::translate(rotate_m4(glm::scale(identity, scale), rotation), position)`. -/
def createModelMatrix (transform : TransformM) : Mat4 :=
  glm.translate (rotate_m4 (glm.scale 1 transform.scale) transform.rotation)
    transform.position

/-- `pMatrix = glm::perspective(glm::radians(90.0f), 1.0f, 0.1f, 100.0f)`
(line 276); `tan(radians(90) / 2) = tan(pi/4) = 1` exactly. -/
def pMatrix : Mat4 := glm.perspective 1 1 (1 / 10) 100

/-- `struct Camera` with the source's default look direction
`glm::angleAxis(0.f, vec3(0,0,1))`, i.e. the identity quaternion. -/
structure CameraM where
  position : V3
  lookDirection : Quat := ⟨1, 0, 0, 0⟩
deriving DecidableEq, Repr

/-- `calcVPMatrix(Camera*)` (line 283):
`pMatrix * glm::translate(glm::toMat4(camera->lookDirection), -camera->position)`. -/
def calcVPMatrix (camera : CameraM) : Mat4 :=
  pMatrix * glm.translate (glm.toMat4 camera.lookDirection) (-camera.position)

/-- A transform with position `(1,0,0)`, identity rotation and scale
`(2,1,1)`: on it the documented order `T * R * S` and the implemented order
differ. -/
def transformC1 : TransformM := ⟨⟨1, 0, 0⟩, ⟨1, 0, 0, 0⟩, ⟨2, 1, 1⟩⟩

/-- The homogeneous point at the origin, `(0, 0, 0, 1)`. -/
def originPoint : Fin 4 → ℚ := fun j => if j = 3 then 1 else 0

/-- C1 counterexample: for the transform with position `(1,0,0)`, identity
rotation and scale `(2,1,1)`, applying the implemented model matrix to the
origin gives `(2,0,0,1)` (the translation is scaled), not the
`translate(p) * rotate(r) * scale(s)` composition, which gives `(1,0,0,1)`:
the claimed equality `modelMatrix(T) * v = T(p) * (R(r) * (S(s) * v))`
fails. -/
theorem createModelMatrix_not_translate_last :
    ¬ (createModelMatrix transformC1).mulVec originPoint
        = (transMat transformC1.position).mulVec
            ((glm.toMat4 transformC1.rotation).mulVec
              ((scaleMat transformC1.scale).mulVec originPoint)) := by
  intro h
  have h0 := congrFun h 0
  simp +decide [createModelMatrix, rotate_m4, glm.translate, glm.scale,
    glm.toMat4, transMat, scaleMat, transformC1, originPoint, V3.comp,
    Matrix.mulVec, Matrix.dotProduct, Fin.sum_univ_four, Matrix.mul_apply,
    Matrix.of_apply] at h0

/-- C1 amended: glm's `translate` and `scale` post-multiply their matrix
argument, so `createModelMatrix` composes in the order `R * S * T(p)`; for
every transform and vector, the model matrix applies the translation first,
then the scale, then the rotation:
`modelMatrix(T) * v = rotate(r) * (scale(s) * (translate(p) * v))`. -/
theorem createModelMatrix_mulVec (t : TransformM) (v : Fin 4 → ℚ) :
    (createModelMatrix t).mulVec v
      = (glm.toMat4 t.rotation).mulVec
          ((scaleMat t.scale).mulVec ((transMat t.position).mulVec v)) := by
  rw [createModelMatrix, rotate_m4, glm.scale_one, glm.translate_eq_mul,
    Matrix.mulVec_mulVec, Matrix.mulVec_mulVec, Matrix.mul_assoc]

/-- C7: `calcVPMatrix` is exactly the composition
`projection * rotate(lookDirection) * translate(-position)`, and the shared
projection matrix is the fixed perspective projection with 90 degree vertical
field of view (`tanHalfFovy = tan(pi/4) = 1`), aspect ratio 1, near plane
`0.1` and far plane `100`. -/
theorem calcVPMatrix_eq (camera : CameraM) :
    calcVPMatrix camera
        = pMatrix * glm.toMat4 camera.lookDirection
            * transMat (-camera.position)
      ∧ pMatrix = glm.perspective 1 1 (1 / 10) 100 := by
  constructor
  · rw [calcVPMatrix, glm.translate_eq_mul, Matrix.mul_assoc]
  · rfl

/-- `struct Vertex` (line 17): position, color, textureCoords, normals. -/
structure VertexM where
  position : V4
  color : V4
  textureCoords : V2
  normals : V4
deriving DecidableEq, Repr

/-- `enum class PrimitiveFormat` (line 24). -/
inductive PrimitiveFormat where
  | Triangles
  | TriangleFan
  | TriangleStrip
  | Lines
  | LineStrip
deriving DecidableEq, Repr

/-- The GL topology constant each `PrimitiveFormat` value aliases
(`GL_TRIANGLES` etc.), the value of `static_cast<GLenum>` at the draw
call. -/
def PrimitiveFormat.toGLenum : PrimitiveFormat → Nat
  | .Triangles => 0x0004
  | .TriangleFan => 0x0006
  | .TriangleStrip => 0x0005
  | .Lines => 0x0001
  | .LineStrip => 0x0003

/-- `GL_UNSIGNED_INT`, the index type of every draw call. -/
def GL_UNSIGNED_INT : Nat := 0x1405

/-- `GL_FLOAT`, the component type of every vertex attribute. -/
def GL_FLOAT : Nat := 0x1406

/-- `struct Mesh` (line 32); `vao`, `vbo`, `ibo` are the GL object names
(opaque handles chosen by the driver).  Index values are `uint32_t`,
modelled as `Nat`. -/
structure MeshM where
  vertices : List VertexM
  indices : List Nat
  primitiveFormat : PrimitiveFormat
  vao : Nat
  vbo : Nat
  ibo : Nat
deriving DecidableEq, Repr

/-- `createMesh` (line 242) modulo the GL upload calls: it stores the given
vertices, indices and topology tag unchanged in the returned `Mesh` and
performs no validation of any kind.  The handles `vao`, `vbo`, `ibo` are the
object names produced by `glCreateVertexArrays` / `glCreateBuffers` (driver
collaborator), taken here as parameters. -/
def createMesh (vertices : List VertexM) (indices : List Nat)
    (fmt : PrimitiveFormat) (vao vbo ibo : Nat) : MeshM :=
  ⟨vertices, indices, fmt, vao, vbo, ibo⟩

/-- `sizeof(float)`. -/
def sizeof_float : Nat := 4

/-- One attribute registration
`glVertexArrayAttribFormat(vao, attribindex, size, type, normalized,
relativeoffset)` from `createMesh`. -/
structure AttribFormat where
  attribindex : Nat
  size : Nat
  componentType : Nat
  relativeoffset : Nat
deriving DecidableEq, Repr

/-- The four `glVertexArrayAttribFormat` calls of `createMesh`
(lines 258-261): attribute 0 (position) at offset `0`, attribute 1 (color)
at `4 * sizeof(float)`, attribute 2 (textureCoords) at `8 * sizeof(float)`,
attribute 3 (normals) at `10 * sizeof(float)`, all with `GL_FLOAT`
components. -/
def createMeshAttribFormats : List AttribFormat :=
  [⟨0, 4, GL_FLOAT, 0⟩,
   ⟨1, 4, GL_FLOAT, 4 * sizeof_float⟩,
   ⟨2, 2, GL_FLOAT, 8 * sizeof_float⟩,
   ⟨3, 4, GL_FLOAT, 10 * sizeof_float⟩]

/-- `sizeof(Vertex)`: standard C++ layout of `struct Vertex` — `glm::vec4`
(16 bytes, alignment 4), `glm::vec4`, `glm::vec2` (8 bytes), `glm::vec4`,
with no padding, totalling 56 bytes. -/
def sizeof_Vertex : Nat :=
  4 * sizeof_float + 4 * sizeof_float + 2 * sizeof_float + 4 * sizeof_float

/-- The per-vertex stride `createMesh` passes to
`glVertexArrayVertexBuffer` (line 262): `sizeof(Vertex)`. -/
def createMeshStride : Nat := sizeof_Vertex

/-- C2 counterexample: the binary stride registered by `createMesh` is
`sizeof(Vertex) = 56` bytes, not the claimed 48 bytes. -/
theorem createMeshStride_ne_48 : createMeshStride ≠ 48 := by decide

/-- C2 amended: the vertex layout registered by `createMesh` describes four
`GL_FLOAT` attributes at byte offsets 0, 16, 32 and 40, and the per-vertex
stride is 56 bytes, equal to `sizeof(Vertex)`. -/
theorem createMesh_layout :
    createMeshAttribFormats
        = [⟨0, 4, GL_FLOAT, 0⟩, ⟨1, 4, GL_FLOAT, 16⟩,
           ⟨2, 2, GL_FLOAT, 32⟩, ⟨3, 4, GL_FLOAT, 40⟩]
      ∧ createMeshStride = 56 ∧ createMeshStride = sizeof_Vertex := by
  refine ⟨?_, by decide, rfl⟩
  decide

/-- A vertex value for concrete test meshes (the first cube vertex of
`main`). -/
def vtx0 : VertexM := ⟨⟨0, 0, 0, 1⟩, ⟨0, 0, 0, 1⟩, ⟨0, 0⟩, ⟨0, 0, 0, 1⟩⟩

/-- C3 counterexample: `createMesh` accepts one vertex together with the
index list `[5]` and returns a `Mesh` whose only index is `5 ≥ 1`; no
rejection happens and the resulting `Mesh` violates the claimed
invariant. -/
theorem createMesh_accepts_invalid_index :
    ¬ ∀ i ∈ (createMesh [vtx0] [5] .Triangles 1 2 3).indices,
        i < (createMesh [vtx0] [5] .Triangles 1 2 3).vertices.length := by
  decide

/-- C3 amended: `createMesh` performs no index-bounds validation — the
`Mesh` it returns stores exactly the given vertex and index sequences (and
topology tag), so every supplied index, in range or not, appears in the
constructed `Mesh`. -/
theorem createMesh_stores_inputs (vertices : List VertexM)
    (indices : List Nat) (fmt : PrimitiveFormat) (vao vbo ibo : Nat) :
    (createMesh vertices indices fmt vao vbo ibo).vertices = vertices
      ∧ (createMesh vertices indices fmt vao vbo ibo).indices = indices
      ∧ (createMesh vertices indices fmt vao vbo ibo).primitiveFormat
          = fmt :=
  ⟨rfl, rfl, rfl⟩

/-- The key-held state `glfwGetKey` reports for the ten keys `updateCamera`
reads (windowing collaborator). -/
structure Keys where
  keyW : Bool
  keyA : Bool
  keyS : Bool
  keyD : Bool
  keyQ : Bool
  keyE : Bool
  keyLeft : Bool
  keyRight : Bool
  keyUp : Bool
  keyDown : Bool
deriving DecidableEq, Repr

/-- The key state in which no key is held. -/
def noKeys : Keys :=
  ⟨false, false, false, false, false, false, false, false, false, false⟩

/-- The camera forward basis vector of `updateCamera` (line 312):
`glm::rotate(glm::inverse(lookDirection), {0,0,-1,1})`. -/
def cameraForward (camera : CameraM) : V3 :=
  glm.quatRotate (glm.quatInverse camera.lookDirection) ⟨0, 0, -1⟩

/-- The camera right basis vector of `updateCamera` (line 313). -/
def cameraRight (camera : CameraM) : V3 :=
  glm.quatRotate (glm.quatInverse camera.lookDirection) ⟨1, 0, 0⟩

/-- The camera up basis vector of `updateCamera` (line 314). -/
def cameraUp (camera : CameraM) : V3 :=
  glm.quatRotate (glm.quatInverse camera.lookDirection) ⟨0, 1, 0⟩

/-- `updateCamera` (line 311) as a function of the held-key state and the
camera.  The float step `0.05f` is the rational `1/20`.  The `±0.5` degree
arrow-key rotations call `glm::angleAxis(glm::radians(±0.5f), axis)`, whose
half-angle cosine and sine are irrational; they are the parameters `c05`
(cosine, even in the sign of the angle) and `s05` (sine for `+0.5` degrees;
`-s05` for `-0.5` degrees). -/
def updateCamera (c05 s05 : ℚ) (keys : Keys) (camera : CameraM) : CameraM :=
  let fwd := cameraForward camera
  let right := cameraRight camera
  let up := cameraUp camera
  let p0 := camera.position
  let p1 := if keys.keyW then p0 + (1 / 20 : ℚ) • fwd else p0
  let p2 := if keys.keyA then
      p1 - (1 / 20 : ℚ) • (⟨right.x, 0, right.z⟩ : V3) else p1
  let p3 := if keys.keyS then p2 - (1 / 20 : ℚ) • fwd else p2
  let p4 := if keys.keyD then p3 + (1 / 20 : ℚ) • right else p3
  let p5 := if keys.keyQ then p4 + (1 / 20 : ℚ) • up else p4
  let p6 := if keys.keyE then p5 - (1 / 20 : ℚ) • up else p5
  let q0 := camera.lookDirection
  let q1 := if keys.keyLeft then
      glm.quatMul q0 (glm.angleAxis c05 (-s05) ⟨0, 1, 0⟩) else q0
  let q2 := if keys.keyRight then
      glm.quatMul q1 (glm.angleAxis c05 s05 ⟨0, 1, 0⟩) else q1
  let q3 := if keys.keyUp then
      glm.quatMul q2 (glm.angleAxis c05 (-s05) right) else q2
  let q4 := if keys.keyDown then
      glm.quatMul q3 (glm.angleAxis c05 s05 right) else q3
  ⟨p6, q4⟩

@[simp]
theorem V3.add_zero' (a : V3) : a + 0 = a := by
  apply V3.ext' <;> simp

@[simp]
theorem V3.sub_zero' (a : V3) : a - 0 = a := by
  apply V3.ext' <;> simp

theorem ite_add_pos (k : Bool) (p v : V3) :
    (if k then p + v else p) = p + (if k then v else 0) := by
  cases k <;> simp

theorem ite_sub_pos (k : Bool) (p v : V3) :
    (if k then p - v else p) = p - (if k then v else 0) := by
  cases k <;> simp

/-- Key state with only D (strafe right) held. -/
def keysOnlyD : Keys :=
  ⟨false, false, false, true, false, false, false, false, false, false⟩

/-- A camera at the origin whose look direction is the (unnormalised)
quaternion `w = 1, z = 1`, a 90 degree roll about the z axis; its right
vector is `(1/2, -1/2, 0)`, which has a non-zero vertical component. -/
def cameraC5 : CameraM := ⟨⟨0, 0, 0⟩, ⟨1, 0, 0, 1⟩⟩

/-- C5 counterexample: holding only D moves `cameraC5` to
`(1/40, -1/40, 0)` — the full right vector `(1/2, -1/2, 0)` is used, with
its vertical component intact — whereas the claim (every strafe key uses the
right vector with `y` zeroed) predicts `(1/40, 0, 0)`. -/
theorem updateCamera_keyD_not_flattened :
    (updateCamera 1 0 keysOnlyD cameraC5).position
          = ⟨1 / 40, -(1 / 40), 0⟩
      ∧ (updateCamera 1 0 keysOnlyD cameraC5).position
          ≠ cameraC5.position
              + (1 / 20 : ℚ) • (⟨(cameraRight cameraC5).x, 0,
                  (cameraRight cameraC5).z⟩ : V3) := by
  constructor
  · apply V3.ext' <;>
      norm_num [updateCamera, keysOnlyD, cameraC5, cameraForward,
        cameraRight, cameraUp, glm.quatRotate, glm.quatInverse, glm.cross]
  · intro h
    have hy := congrArg V3.y h
    norm_num [updateCamera, keysOnlyD, cameraC5, cameraForward, cameraRight,
      cameraUp, glm.quatRotate, glm.quatInverse, glm.cross] at hy

/-- C5 amended: each held movement key translates the position by exactly
`0.05` units along its basis vector — W/S along forward, Q/E along up, and
for the strafe keys: A (strafe left) uses only the horizontal (x/z)
component of the right vector with the vertical component zeroed, while D
(strafe right) uses the full right vector including its vertical
component.  Held keys accumulate; the arrow-key rotations never change the
position. -/
theorem updateCamera_position_spec (c05 s05 : ℚ) (keys : Keys)
    (camera : CameraM) :
    (updateCamera c05 s05 keys camera).position
      = camera.position
          + (if keys.keyW then (1 / 20 : ℚ) • cameraForward camera else 0)
          - (if keys.keyA then
              (1 / 20 : ℚ) • (⟨(cameraRight camera).x, 0,
                (cameraRight camera).z⟩ : V3) else 0)
          - (if keys.keyS then (1 / 20 : ℚ) • cameraForward camera else 0)
          + (if keys.keyD then (1 / 20 : ℚ) • cameraRight camera else 0)
          + (if keys.keyQ then (1 / 20 : ℚ) • cameraUp camera else 0)
          - (if keys.keyE then (1 / 20 : ℚ) • cameraUp camera else 0) := by
  simp only [updateCamera, ite_add_pos, ite_sub_pos]

/-- C9: when none of the ten keys is held, `updateCamera` returns the
camera unchanged: position and look direction keep their previous values. -/
theorem updateCamera_noKeys (c05 s05 : ℚ) (camera : CameraM) :
    updateCamera c05 s05 noKeys camera = camera := rfl

/-- `struct Material` (line 196): a shader-program reference, 32 texture
slots and a flat color.  Pointers are modelled as `Nat` identifiers into
stores; empty texture slots are `none`. -/
structure MaterialM where
  shader : Nat
  textures : Fin 32 → Option Nat
  color : V4

/-- `struct MeshRenderer` (line 202): non-owning mesh and material
references, modelled as store identifiers. -/
structure MeshRendererM where
  mesh : Nat
  material : Nat
deriving DecidableEq, Repr

/-- `struct GameObject` (line 213): a mesh renderer plus one owned
`Transform` (held by value). -/
structure GameObjectM where
  meshRenderer : MeshRendererM
  transform : TransformM
deriving DecidableEq, Repr

instance : Inhabited GameObjectM := ⟨⟨⟨0, 0⟩, {}⟩⟩

/-- `createGameObject(Mesh*, Material*)` (line 218): a fresh object holding
the given references and a default transform. -/
def createGameObject (mesh material : Nat) : GameObjectM := ⟨⟨mesh, material⟩, {}⟩

/-- `clone(GameObject*)` (line 331): `new GameObject(*go)` — the copy
constructor copies the `Transform` by value and the mesh/material
references as pointers, into a fresh heap allocation. -/
def clone (go : GameObjectM) : GameObjectM := ⟨go.meshRenderer, go.transform⟩

/-- `createGameObjects(prefab, count)` (line 336): a list of `count` fresh
clones of the prefab; each list cell stands for its own heap allocation,
distinct from every other clone and from the prefab. -/
def createGameObjects (prefab : GameObjectM) (count : Nat) :
    List GameObjectM :=
  (List.range count).map fun _ => clone prefab

/-- Overwriting the `Transform` of the `i`-th game object of a scene list
(each list cell is a distinct allocation, so this mutation touches exactly
one object). -/
def setTransformAt (objs : List GameObjectM) (i : Nat) (t : TransformM) :
    List GameObjectM :=
  objs.set i ⟨(objs.getD i default).meshRenderer, t⟩

/-- Overwriting one entry of a pointer-indexed store (a heap mutation seen
through every reference to `key`). -/
def updateStore {α : Type} (store : Nat → α) (key : Nat) (a : α) :
    Nat → α :=
  fun k => if k = key then a else store k

/-- Setting the flat color of a material (e.g. `mat->color.a = 0.5f`). -/
def withColor (mat : MaterialM) (c : V4) : MaterialM :=
  ⟨mat.shader, mat.textures, c⟩

/-- C6: cloning a prefab `count` times yields clones that (1) all carry the
prefab's mesh and material references and a value copy of its transform;
(2) overwriting one clone's transform replaces exactly that clone's
transform, keeping its shared references; (3) every other clone is
unchanged by that mutation (and the prefab value is never touched — the
clones are separate allocations); and (4) mutating the color of the shared
material through the prefab's material reference is observed through every
clone's material reference. -/
theorem createGameObjects_clone_semantics (prefab : GameObjectM)
    (count i j : Nat) (t : TransformM) (materials : Nat → MaterialM)
    (c : V4) :
    (j < count →
      (createGameObjects prefab count).getD j default
        = ⟨prefab.meshRenderer, prefab.transform⟩)
    ∧ (i < count →
      (setTransformAt (createGameObjects prefab count) i t).getD i default
        = ⟨prefab.meshRenderer, t⟩)
    ∧ (j < count → j ≠ i →
      (setTransformAt (createGameObjects prefab count) i t).getD j default
        = (createGameObjects prefab count).getD j default)
    ∧ (j < count →
      (updateStore materials prefab.meshRenderer.material
          (withColor (materials prefab.meshRenderer.material) c)
        (((createGameObjects prefab count).getD j default).meshRenderer.material)).color
        = c) := by
  refine ⟨fun hj => ?_, fun hi => ?_, fun hj hne => ?_, fun hj => ?_⟩
  · simp [createGameObjects, clone, List.getD, List.getElem?_map,
      List.getElem?_replicate, hj]
  · have hlen : i < (createGameObjects prefab count).length := by
      simpa [createGameObjects] using hi
    simp [setTransformAt, List.getD, List.getElem?_set_eq_of_lt _ hlen]
    simp [createGameObjects, clone, List.getD, List.getElem?_map,
      List.getElem?_replicate, hi]
  · simp [setTransformAt, List.getD, List.getElem?_set_ne (Ne.symm hne)]
  · simp [createGameObjects, clone, List.getD, List.getElem?_map,
      List.getElem?_replicate, hj, updateStore, withColor]

/-- Concrete data for the C6 witness. -/
def prefabW : GameObjectM := ⟨⟨7, 9⟩, {}⟩

/-- Concrete transform for the C6 witness. -/
def transformW : TransformM := ⟨⟨5, 5, 5⟩, ⟨1, 0, 0, 0⟩, ⟨1, 1, 1⟩⟩

/-- Concrete material store for the C6 witness. -/
def materialsW : Nat → MaterialM := fun _ => ⟨3, fun _ => none, ⟨1, 0, 0, 1⟩⟩

/-- Witness for C6 at `count = 3`, `i = 0`, `j = 1`. -/
theorem createGameObjects_clone_semantics_witness :
    (createGameObjects prefabW 3).getD 1 default
        = ⟨prefabW.meshRenderer, prefabW.transform⟩
      ∧ (setTransformAt (createGameObjects prefabW 3) 0 transformW).getD 0
          default = ⟨prefabW.meshRenderer, transformW⟩
      ∧ (setTransformAt (createGameObjects prefabW 3) 0 transformW).getD 1
          default = (createGameObjects prefabW 3).getD 1 default
      ∧ (updateStore materialsW prefabW.meshRenderer.material
          (withColor (materialsW prefabW.meshRenderer.material) ⟨0, 1, 0, 1⟩)
          (((createGameObjects prefabW 3).getD 1
            default).meshRenderer.material)).color = ⟨0, 1, 0, 1⟩ :=
  ⟨(createGameObjects_clone_semantics prefabW 3 0 1 transformW materialsW
      ⟨0, 1, 0, 1⟩).1 (by decide),
   (createGameObjects_clone_semantics prefabW 3 0 1 transformW materialsW
      ⟨0, 1, 0, 1⟩).2.1 (by decide),
   (createGameObjects_clone_semantics prefabW 3 0 1 transformW materialsW
      ⟨0, 1, 0, 1⟩).2.2.1 (by decide) (by decide),
   (createGameObjects_clone_semantics prefabW 3 0 1 transformW materialsW
      ⟨0, 1, 0, 1⟩).2.2.2 (by decide)⟩

/-- One observable step of the render loop: the calls `main`,
`renderGameObject` and its helpers make against the windowing and GPU
driver collaborators, in program order, with their arguments. -/
inductive LoopEvent where
  | pollEvents
  | cameraUpdate
  | clearBuffers (color depth stencil : Bool)
  | bindVertexArray (vao : Nat)
  | useProgram (program : Nat)
  | uniform4f (name : String) (value : V4)
  | uniformMat4 (name : String) (value : Mat4)
  | drawElements (mode : Nat) (count : Nat) (indexType : Nat)
  | swapBuffers
deriving DecidableEq

/-- `applyMaterial(Material*)` (line 287): activate the material's program,
then set `uColor` from its flat color. -/
def applyMaterial (mat : MaterialM) : List LoopEvent :=
  [.useProgram mat.shader, .uniform4f "uColor" mat.color]

/-- `applyTransform(GameObject*)` (line 292): set `uModel` from the
object's current model matrix. -/
def applyTransform (go : GameObjectM) : List LoopEvent :=
  [.uniformMat4 "uModel" (createModelMatrix go.transform)]

/-- `applyCamera(Camera*, GameObject*)` (line 297): set `uViewProjection`
from the camera's current view-projection matrix. -/
def applyCamera (camera : CameraM) : List LoopEvent :=
  [.uniformMat4 "uViewProjection" (calcVPMatrix camera)]

/-- `renderGameObject(Camera*, GameObject*)` (line 302): bind the mesh's
vertex array, apply material, transform and camera, then issue the one
indexed draw call with the mesh's topology tag, its index count and
`GL_UNSIGNED_INT`.  `meshes` and `materials` are the pointer-indexed
stores. -/
def renderGameObject (meshes : Nat → MeshM) (materials : Nat → MaterialM)
    (camera : CameraM) (go : GameObjectM) : List LoopEvent :=
  .bindVertexArray (meshes go.meshRenderer.mesh).vao
    :: applyMaterial (materials go.meshRenderer.material)
    ++ applyTransform go
    ++ applyCamera camera
    ++ [.drawElements (meshes go.meshRenderer.mesh).primitiveFormat.toGLenum
          (meshes go.meshRenderer.mesh).indices.length GL_UNSIGNED_INT]

/-- `renderGameObjects(Camera*, vector<GameObject*>)` (line 344): render
each object in list order. -/
def renderGameObjects (meshes : Nat → MeshM) (materials : Nat → MaterialM)
    (camera : CameraM) (objs : List GameObjectM) : List LoopEvent :=
  objs.flatMap (renderGameObject meshes materials camera)

/-- The steady-state `while (!glfwWindowShouldClose(win))` loop of `main`
(line 513): each iteration polls events, updates the camera from that
frame's key state, clears the color/depth/stencil buffers, renders every
object and presents the frame.  The windowing collaborator's close signal
is modelled by the end of the per-frame input list: the loop runs once per
element and stops when the collaborator reports close-requested. -/
def mainLoop (meshes : Nat → MeshM) (materials : Nat → MaterialM)
    (c05 s05 : ℚ) (objs : List GameObjectM) (camera : CameraM) :
    List Keys → List LoopEvent
  | [] => []
  | keys :: rest =>
    let camera2 := updateCamera c05 s05 keys camera
    .pollEvents :: .cameraUpdate :: .clearBuffers true true true
        :: renderGameObjects meshes materials camera2 objs
      ++ .swapBuffers :: mainLoop meshes materials c05 s05 objs camera2 rest

/-- Recogniser for indexed draw calls in a loop trace. -/
def isDrawEvent : LoopEvent → Bool
  | .drawElements _ _ _ => true
  | _ => false

theorem renderGameObject_eq (meshes : Nat → MeshM)
    (materials : Nat → MaterialM) (camera : CameraM) (go : GameObjectM) :
    renderGameObject meshes materials camera go
      = [.bindVertexArray (meshes go.meshRenderer.mesh).vao,
         .useProgram (materials go.meshRenderer.material).shader,
         .uniform4f "uColor" (materials go.meshRenderer.material).color,
         .uniformMat4 "uModel" (createModelMatrix go.transform),
         .uniformMat4 "uViewProjection" (calcVPMatrix camera),
         .drawElements (meshes go.meshRenderer.mesh).primitiveFormat.toGLenum
           (meshes go.meshRenderer.mesh).indices.length GL_UNSIGNED_INT] :=
  rfl

theorem countP_isDraw_renderGameObjects (meshes : Nat → MeshM)
    (materials : Nat → MaterialM) (camera : CameraM)
    (objs : List GameObjectM) :
    (renderGameObjects meshes materials camera objs).countP isDrawEvent
      = objs.length := by
  induction objs with
  | nil => rfl
  | cons go tl ih =>
    simp [renderGameObjects, List.countP_append, renderGameObject_eq,
      List.countP_cons, isDrawEvent] at ih ⊢
    omega

/-- C8: every iteration of the render loop emits, in order: an input poll,
the camera update, one clear of the color/depth/stencil buffers, then for
each game object in scene-list order the block
[bind the mesh's vertex array; activate the material's program; set
`uColor`; set `uModel`; set `uViewProjection`; exactly one indexed draw
call with the mesh's topology tag, its index count and the 32-bit
`GL_UNSIGNED_INT` index type], then one buffer swap — and then continues
with the camera advanced by that frame's input, until the windowing
collaborator reports close-requested (the input list ends). -/
theorem mainLoop_frame_spec (meshes : Nat → MeshM)
    (materials : Nat → MaterialM) (c05 s05 : ℚ) (objs : List GameObjectM)
    (camera : CameraM) (keys : Keys) (rest : List Keys) :
    mainLoop meshes materials c05 s05 objs camera (keys :: rest)
        = [.pollEvents, .cameraUpdate, .clearBuffers true true true]
          ++ objs.flatMap (fun go =>
              [.bindVertexArray (meshes go.meshRenderer.mesh).vao,
               .useProgram (materials go.meshRenderer.material).shader,
               .uniform4f "uColor" (materials go.meshRenderer.material).color,
               .uniformMat4 "uModel" (createModelMatrix go.transform),
               .uniformMat4 "uViewProjection"
                 (calcVPMatrix (updateCamera c05 s05 keys camera)),
               .drawElements (meshes go.meshRenderer.mesh).primitiveFormat.toGLenum
                 (meshes go.meshRenderer.mesh).indices.length GL_UNSIGNED_INT])
          ++ .swapBuffers
            :: mainLoop meshes materials c05 s05 objs
                (updateCamera c05 s05 keys camera) rest
      ∧ mainLoop meshes materials c05 s05 objs camera [] = []
      ∧ (mainLoop meshes materials c05 s05 objs camera (keys :: rest)).countP
            isDrawEvent
          = objs.length
            + (mainLoop meshes materials c05 s05 objs
                (updateCamera c05 s05 keys camera) rest).countP
              isDrawEvent := by
  refine ⟨?_, rfl, ?_⟩
  · have hf : renderGameObject meshes materials
          (updateCamera c05 s05 keys camera)
        = fun go =>
          [.bindVertexArray (meshes go.meshRenderer.mesh).vao,
           .useProgram (materials go.meshRenderer.material).shader,
           .uniform4f "uColor" (materials go.meshRenderer.material).color,
           .uniformMat4 "uModel" (createModelMatrix go.transform),
           .uniformMat4 "uViewProjection"
             (calcVPMatrix (updateCamera c05 s05 keys camera)),
           .drawElements
             (meshes go.meshRenderer.mesh).primitiveFormat.toGLenum
             (meshes go.meshRenderer.mesh).indices.length GL_UNSIGNED_INT] :=
      funext fun go => rfl
    simp only [mainLoop, renderGameObjects, hf]
    simp
  · simp only [mainLoop, List.countP_cons, List.countP_append,
      countP_isDraw_renderGameObjects]
    simp [isDrawEvent]

/-- `isWhiteSpace` (line 75): space, newline, carriage return or tab. -/
def isWhiteSpace (c : Char) : Bool :=
  c == ' ' || c == '\n' || c == '\r' || c == '\t'

/-- `lStripNewlines` (line 80): the index-advancing loop skips every
leading whitespace character (returning the empty string when it runs off
the end), i.e. it drops the longest whitespace prefix.  Strings are
modelled as `List Char`. -/
def lStripNewlines (text : List Char) : List Char :=
  text.dropWhile isWhiteSpace

/-- `std::string::npos` on a 64-bit platform. -/
def npos : Nat := 2 ^ 64 - 1

/-- `splitAt(text, i)` (line 91), the five branches verbatim.  (C++ strings
are shorter than `npos`, so branch four, `i + 1 > text.size()` with
`i ≠ npos`, is unreachable from `splitOnFirst`.) -/
def splitAt (text : List Char) (i : Nat) : List Char × List Char :=
  if i = 0 then ([], text.drop 1)
  else if i = npos then (text, [])
  else if i + 1 = text.length then (text.take i, [])
  else if i + 1 > text.length then (text, [])
  else (text.take i, text.drop (i + 1))

/-- `text.find_first_of(c)` for a single character: the index of the first
occurrence of `c`, or `npos` when `c` does not occur. -/
def find_first_of (text : List Char) (c : Char) : Nat :=
  match text with
  | [] => npos
  | x :: xs =>
    if x = c then 0
    else
      let r := find_first_of xs c
      if r = npos then npos else r + 1

/-- `splitOnFirst(text, c)` (line 99). -/
def splitOnFirst (text : List Char) (c : Char) : List Char × List Char :=
  splitAt text (find_first_of text c)

/-- `splitFirstLine(text)` (line 104). -/
def splitFirstLine (text : List Char) : List Char × List Char :=
  splitOnFirst text '\n'

theorem find_first_of_lt {text : List Char} {c : Char} (hmem : c ∈ text)
    (hlen : text.length < npos) : find_first_of text c < text.length := by
  induction text with
  | nil => cases hmem
  | cons x xs ih =>
    by_cases hx : x = c
    · simp [find_first_of, hx]
    · have hmem' : c ∈ xs := by
        rcases List.mem_cons.mp hmem with h | h
        · exact absurd h.symm hx
        · exact h
      have hlen' : xs.length < npos := by
        simp only [List.length_cons] at hlen; omega
      have hr := ih hmem' hlen'
      have hne : find_first_of xs c ≠ npos := by omega
      simp only [find_first_of, if_neg hx, if_neg hne, List.length_cons]
      omega

theorem find_first_of_not_mem {text : List Char} {c : Char}
    (hmem : c ∉ text) : find_first_of text c = npos := by
  induction text with
  | nil => rfl
  | cons x xs ih =>
    have hx : x ≠ c := fun h => hmem (h ▸ List.mem_cons_self x xs)
    have hxs : c ∉ xs := fun h => hmem (List.mem_cons_of_mem x h)
    simp [find_first_of, hx, ih hxs]

theorem splitAt_cons_succ (x : Char) (xs : List Char) (i : Nat)
    (hi : i < xs.length) (hlen : xs.length < npos) :
    splitAt (x :: xs) (i + 1)
      = (x :: (splitAt xs i).1, (splitAt xs i).2) := by
  have hlen' : xs.length < 2 ^ 64 - 1 := by simpa [npos] using hlen
  have hc1 : ¬ (i + 1 = 0) := by omega
  have hc2 : ¬ (i + 1 = npos) := by simp only [npos]; omega
  have hd2 : ¬ (i = npos) := by simp only [npos]; omega
  have hc4 : ¬ (i + 1 + 1 > (x :: xs).length) := by
    simp only [List.length_cons]; omega
  have hd4 : ¬ (i + 1 > xs.length) := by omega
  by_cases hd1 : i = 0
  · subst hd1
    by_cases hone : xs.length = 1
    · have hc3 : 0 + 1 + 1 = (x :: xs).length := by
        simp only [List.length_cons]; omega
      simp only [splitAt]
      rw [if_neg hc1, if_neg hc2, if_pos hc3]
      rcases List.length_eq_one.mp hone with ⟨a, rfl⟩
      simp
    · have hc3 : ¬ (0 + 1 + 1 = (x :: xs).length) := by
        simp only [List.length_cons]; omega
      simp only [splitAt]
      rw [if_neg hc1, if_neg hc2, if_neg hc3, if_neg hc4]
      simp
  · by_cases hc3p : i + 1 = xs.length
    · have hc3 : i + 1 + 1 = (x :: xs).length := by
        simp only [List.length_cons]; omega
      simp only [splitAt]
      rw [if_neg hc1, if_neg hc2, if_pos hc3, if_neg hd1, if_neg hd2,
        if_pos hc3p]
      simp [List.take_succ_cons]
    · have hc3 : ¬ (i + 1 + 1 = (x :: xs).length) := by
        simp only [List.length_cons]; omega
      simp only [splitAt]
      rw [if_neg hc1, if_neg hc2, if_neg hc3, if_neg hc4, if_neg hd1,
        if_neg hd2, if_neg hc3p, if_neg hd4]
      simp [List.take_succ_cons, List.drop_succ_cons]

/-- C10: `splitOnFirst(text, c)` returns `(a, b)` where, when `c` occurs in
`text`, `a` is the part before the first occurrence (so `a` contains no
`c`) and `b` the part after it, the separator itself being consumed
(`a ++ c ++ b = text`); when `c` does not occur, the result is
`(text, "")`.  The hypothesis `text.length < npos` reflects that C++
strings are shorter than `npos`. -/
theorem splitOnFirst_mem_spec (text : List Char) (c : Char) :
    text.length < npos → c ∈ text →
      c ∉ (splitOnFirst text c).1
        ∧ (splitOnFirst text c).1 ++ c :: (splitOnFirst text c).2 = text := by
  induction text with
  | nil => intro _ hmem; cases hmem
  | cons x xs ih =>
    intro hlen hmem
    by_cases hx : x = c
    · subst hx
      simp [splitOnFirst, find_first_of, splitAt]
    · have hmem' : c ∈ xs := by
        rcases List.mem_cons.mp hmem with h | h
        · exact absurd h.symm hx
        · exact h
      have hlen' : xs.length < npos := by
        simp only [List.length_cons] at hlen; omega
      have hr := find_first_of_lt hmem' hlen'
      have hne : find_first_of xs c ≠ npos := by omega
      have hsplit : splitOnFirst (x :: xs) c
          = (x :: (splitOnFirst xs c).1, (splitOnFirst xs c).2) := by
        simp only [splitOnFirst, find_first_of, if_neg hx, if_neg hne]
        exact splitAt_cons_succ x xs _ hr hlen'
      obtain ⟨ha, hb⟩ := ih hlen' hmem'
      refine ⟨?_, ?_⟩
      · rw [hsplit]
        simp only [List.mem_cons, not_or]
        exact ⟨fun h => hx h.symm, ha⟩
      · rw [hsplit]
        simp only [List.cons_append, List.cons_inj_right]
        exact hb

/-- C10: `splitOnFirst(text, c)` returns `(a, b)` where, when `c` occurs in
`text`, `a` is the part before the first occurrence (so `a` contains no
`c`) and `b` the part after it, the separator itself being consumed
(`a ++ c ++ b = text`); when `c` does not occur, the result is
`(text, "")`.  The hypothesis `text.length < npos` reflects that C++
strings are shorter than `npos`. -/
theorem splitOnFirst_spec (text : List Char) (c : Char)
    (hlen : text.length < npos) :
    (c ∈ text →
      c ∉ (splitOnFirst text c).1
        ∧ (splitOnFirst text c).1 ++ c :: (splitOnFirst text c).2 = text)
    ∧ (c ∉ text → splitOnFirst text c = (text, [])) := by
  constructor
  · exact splitOnFirst_mem_spec text c hlen
  · intro hmem
    simp only [splitOnFirst, find_first_of_not_mem hmem, splitAt]
    rw [if_neg (by norm_num [npos])]
    simp

/-- `std::tolower` on the character set this program feeds it (ASCII):
uppercase letters gain 32, everything else is unchanged. -/
def tolower (c : Char) : Char :=
  if 'A' ≤ c ∧ c ≤ 'Z' then Char.ofNat (c.toNat + 32) else c

/-- `s2lower` (line 57): lowercases every character. -/
def s2lower (str : List Char) : List Char := str.map tolower

/-- The trailing-whitespace loop of `stripWhitespace` (lines 116-121),
indexing from `e`: while the character at the cursor is whitespace, step
left; the source returns the empty string as soon as the cursor reaches
index 0 or leaves the string (even when the character at index 0 is not
whitespace), and otherwise keeps everything up to and including the cursor.
Out-of-range `operator[]` reads are modelled by `getD` with the null
character. -/
def trailLoop (rem : List Char) (e : Nat) : List Char :=
  if isWhiteSpace (rem.getD e (Char.ofNat 0)) then
    if e - 1 = 0 ∨ e - 1 ≥ rem.length then []
    else trailLoop rem (e - 1)
  else rem.take (e + 1)
termination_by e
decreasing_by simp_all; omega

/-- `stripWhitespace` (line 108): strip the longest whitespace prefix, then
run the trailing loop from the last index.  (For the empty string the C++
reads `rem[rem.size() - 1]` with an underflowed index, which is undefined
behaviour; the model returns the empty string, and `createShader` only
reaches that case on a header line that fails anyway.) -/
def stripWhitespace (str : List Char) : List Char :=
  let rem := str.dropWhile isWhiteSpace
  if rem.isEmpty then [] else trailLoop rem (rem.length - 1)

/-- `GL_VERTEX_SHADER`. -/
def GL_VERTEX_SHADER : Nat := 0x8B31

/-- `GL_FRAGMENT_SHADER`. -/
def GL_FRAGMENT_SHADER : Nat := 0x8B30

/-- `GL_COMPUTE_SHADER`. -/
def GL_COMPUTE_SHADER : Nat := 0x91B9

/-- `GL_GEOMETRY_SHADER`. -/
def GL_GEOMETRY_SHADER : Nat := 0x8DD9

/-- `GL_TESS_CONTROL_SHADER`. -/
def GL_TESS_CONTROL_SHADER : Nat := 0x8E88

/-- `GL_TESS_EVALUATION_SHADER`. -/
def GL_TESS_EVALUATION_SHADER : Nat := 0x8E87

/-- The two parse-time failures of `createShader` (modelled from the two
`throw std::runtime_error` sites: the missing/malformed `#type` header of
line 136, and the unknown type name of line 72). -/
inductive ShaderError where
  | malformedShaderHeader
  | unknownShaderType
deriving DecidableEq, Repr

/-- `sTypeFromName` (line 63): lowercase the name, look it up among the six
known stage names, throw `UnknownShaderType` otherwise. -/
def sTypeFromName (name : List Char) : Except ShaderError Nat :=
  let ln := s2lower name
  if ln = "vertex".toList then .ok GL_VERTEX_SHADER
  else if ln = "fragment".toList then .ok GL_FRAGMENT_SHADER
  else if ln = "compute".toList then .ok GL_COMPUTE_SHADER
  else if ln = "geometry".toList then .ok GL_GEOMETRY_SHADER
  else if ln = "tess-control".toList then .ok GL_TESS_CONTROL_SHADER
  else if ln = "tess-evaluation".toList then .ok GL_TESS_EVALUATION_SHADER
  else .error .unknownShaderType

/-- The six lowercase stage names `sTypeFromName` accepts. -/
def validTypeNames : List (List Char) :=
  ["vertex".toList, "fragment".toList, "compute".toList,
   "geometry".toList, "tess-control".toList, "tess-evaluation".toList]

/-- The stage constant for a lowercase stage name (the lookup table of
`sTypeFromName` as a total function). -/
def glTypeOfName (ln : List Char) : Nat :=
  if ln = "vertex".toList then GL_VERTEX_SHADER
  else if ln = "fragment".toList then GL_FRAGMENT_SHADER
  else if ln = "compute".toList then GL_COMPUTE_SHADER
  else if ln = "geometry".toList then GL_GEOMETRY_SHADER
  else if ln = "tess-control".toList then GL_TESS_CONTROL_SHADER
  else if ln = "tess-evaluation".toList then GL_TESS_EVALUATION_SHADER
  else 0

/-- The header literal `"#type "`. -/
def typeTag : List Char := ['#', 't', 'y', 'p', 'e', ' ']

/-- `createShader` (line 126) on the contents of the shader file (file IO
and the GL compilation of the body are external collaborators): strip
leading whitespace, split off the first line, require the `"#type "`
prefix (`starts_with`, i.e. the first six characters), resolve the stage
from the whitespace-trimmed remainder of the line, and hand the rest of
the text to the driver as the shader body.  The result is the pair the
source passes on to `glCreateShader`/`glShaderSource`; each `throw`
becomes an `Except.error`. -/
def createShader (contents : List Char) :
    Except ShaderError (Nat × List Char) :=
  let srcuf := lStripNewlines contents
  let parts := splitFirstLine srcuf
  if parts.1.take 6 = typeTag then
    match sTypeFromName (stripWhitespace (parts.1.drop 6)) with
    | .ok stype => .ok (stype, parts.2)
    | .error e => .error e
  else .error .malformedShaderHeader

/-- The first line of the whitespace-stripped source is a well-formed
`#type` header with a known stage name (written with the same source
functions `createShader` runs). -/
def validHeader (contents : List Char) : Prop :=
  (splitFirstLine (lStripNewlines contents)).1.take 6 = typeTag
    ∧ s2lower (stripWhitespace
        ((splitFirstLine (lStripNewlines contents)).1.drop 6))
      ∈ validTypeNames

theorem tolower_ws {c : Char} (h : isWhiteSpace c = true) : tolower c = c := by
  have hc : c = ' ' ∨ c = '\n' ∨ c = '\r' ∨ c = '\t' := by
    simpa [isWhiteSpace, Bool.or_eq_true, beq_iff_eq, or_assoc] using h
  rcases hc with rfl | rfl | rfl | rfl <;> decide

theorem validTypeNames_not_ws :
    ∀ l ∈ validTypeNames, ∀ x ∈ l, isWhiteSpace x = false := by decide

theorem name_chars_not_ws {name : List Char}
    (h : s2lower name ∈ validTypeNames) :
    ∀ c ∈ name, isWhiteSpace c = false := by
  intro c hc
  by_contra hws
  simp only [Bool.not_eq_false] at hws
  have hmap : tolower c ∈ s2lower name := List.mem_map_of_mem tolower hc
  rw [tolower_ws hws] at hmap
  have hf := validTypeNames_not_ws _ h c hmap
  simp [hws] at hf

theorem name_length_ge_two {name : List Char}
    (h : s2lower name ∈ validTypeNames) : 2 ≤ name.length := by
  have hlen : (s2lower name).length = name.length := List.length_map name tolower
  have hall : ∀ l ∈ validTypeNames, 2 ≤ l.length := by decide
  have := hall _ h
  omega

theorem dropWhile_append_of_forall {p : Char → Bool} {lead rest : List Char}
    (h : ∀ c ∈ lead, p c = true) :
    (lead ++ rest).dropWhile p = rest.dropWhile p := by
  induction lead with
  | nil => rfl
  | cons a t ih =>
    rw [List.cons_append, List.dropWhile_cons,
      if_pos (h a (List.mem_cons_self a t))]
    exact ih fun c hc => h c (List.mem_cons_of_mem a hc)

theorem trailLoop_append (l extra : List Char) :
    ∀ e, e < l.length → trailLoop (l ++ extra) e = trailLoop l e := by
  intro e
  induction e using Nat.strong_induction_on with
  | _ e ih =>
    intro he
    have hg : (l ++ extra).getD e (Char.ofNat 0) = l.getD e (Char.ofNat 0) := by
      simp [List.getD, List.getElem?_append, he]
    rw [trailLoop]
    conv_rhs => rw [trailLoop]
    rw [hg]
    by_cases hws : isWhiteSpace (l.getD e (Char.ofNat 0))
    · rw [if_pos hws, if_pos hws]
      by_cases hz : e - 1 = 0
      · rw [if_pos (Or.inl hz), if_pos (Or.inl hz)]
      · have h1 : ¬ (e - 1 = 0 ∨ e - 1 ≥ (l ++ extra).length) := by
          rw [List.length_append]; omega
        have h2 : ¬ (e - 1 = 0 ∨ e - 1 ≥ l.length) := by omega
        rw [if_neg h1, if_neg h2]
        exact ih (e - 1) (by omega) (by omega)
    · rw [if_neg hws, if_neg hws]
      exact List.take_append_of_le_length (by omega)

theorem getD_concat_length (l : List Char) (p d : Char) :
    (l ++ [p]).getD l.length d = p := by
  simp [List.getD, List.getElem?_append]

theorem trailLoop_strip (name : List Char)
    (hname : ∀ c ∈ name, isWhiteSpace c = false) (h2 : 2 ≤ name.length) :
    ∀ pad, (∀ c ∈ pad, isWhiteSpace c = true) →
      trailLoop (name ++ pad) ((name ++ pad).length - 1) = name := by
  intro pad
  induction pad using List.reverseRecOn with
  | nil =>
    intro _
    have hne : name ≠ [] := by
      intro h; subst h; simp at h2
    have hg : (name ++ []).getD ((name ++ []).length - 1) (Char.ofNat 0)
        = name.getLast hne := by
      simp only [List.append_nil]
      rw [List.getLast_eq_getElem]
      simp [List.getD, List.getElem?_eq_getElem
        (show name.length - 1 < name.length by omega)]
    rw [trailLoop, hg, if_neg (by simp [hname _ (List.getLast_mem hne)])]
    have hsucc : (name ++ []).length - 1 + 1 = name.length := by
      simp only [List.append_nil]; omega
    rw [hsucc]
    simp [List.take_length]
  | append_singleton ps p ih =>
    intro hpad
    have hp : isWhiteSpace p = true := hpad p (by simp)
    have hps : ∀ c ∈ ps, isWhiteSpace c = true :=
      fun c hc => hpad c (by simp [hc])
    have hassoc : name ++ (ps ++ [p]) = (name ++ ps) ++ [p] := by simp
    rw [hassoc]
    have hlen : ((name ++ ps) ++ [p]).length - 1 = (name ++ ps).length := by
      simp
    rw [hlen]
    have hg : ((name ++ ps) ++ [p]).getD (name ++ ps).length (Char.ofNat 0)
        = p := getD_concat_length (name ++ ps) p (Char.ofNat 0)
    rw [trailLoop, hg, if_pos hp]
    have hcond : ¬ ((name ++ ps).length - 1 = 0
        ∨ (name ++ ps).length - 1 ≥ ((name ++ ps) ++ [p]).length) := by
      simp only [List.length_append, List.length_singleton]
      omega
    rw [if_neg hcond]
    rw [trailLoop_append (name ++ ps) [p] _
      (by simp only [List.length_append]; omega)]
    exact ih hps

theorem stripWhitespace_pad (pad1 name pad2 : List Char)
    (hp1 : ∀ c ∈ pad1, isWhiteSpace c = true)
    (hp2 : ∀ c ∈ pad2, isWhiteSpace c = true)
    (hname : ∀ c ∈ name, isWhiteSpace c = false)
    (h2 : 2 ≤ name.length) :
    stripWhitespace (pad1 ++ name ++ pad2) = name := by
  obtain ⟨c, t, rfl⟩ : ∃ c t, name = c :: t := by
    cases name with
    | nil => simp at h2
    | cons c t => exact ⟨c, t, rfl⟩
  have hdrop : ((pad1 ++ c :: t) ++ pad2).dropWhile isWhiteSpace
      = (c :: t) ++ pad2 := by
    rw [List.append_assoc, dropWhile_append_of_forall hp1, List.cons_append,
      List.dropWhile_cons,
      if_neg (by simp [hname c (List.mem_cons_self c t)])]
  simp only [stripWhitespace, hdrop]
  rw [if_neg (by simp)]
  exact trailLoop_strip (c :: t) hname h2 pad2 hp2

theorem find_first_of_append_cons (c : Char) (body : List Char) :
    ∀ l : List Char, c ∉ l → l.length < npos →
      find_first_of (l ++ c :: body) c = l.length := by
  intro l
  induction l with
  | nil => intro _ _; simp [find_first_of]
  | cons x xs ih =>
    intro hmem hlen
    have hx : x ≠ c := fun h => hmem (h ▸ List.mem_cons_self x xs)
    have hxs : c ∉ xs := fun h => hmem (List.mem_cons_of_mem x h)
    have hlen' : xs.length < npos := by
      simp only [List.length_cons] at hlen; omega
    have hr := ih hxs hlen'
    have hne : find_first_of (xs ++ c :: body) c ≠ npos := by
      rw [hr]
      intro hEq
      rw [hEq] at hlen'
      exact lt_irrefl _ hlen'
    simp only [List.cons_append, find_first_of, if_neg hx, List.append_eq]
    rw [if_neg hne, hr]
    simp

theorem splitAt_at_sep (l : List Char) (c : Char) (body : List Char)
    (hlen : l.length < npos) :
    splitAt (l ++ c :: body) l.length = (l, body) := by
  by_cases h0 : l.length = 0
  · have hnil : l = [] := List.eq_nil_of_length_eq_zero h0
    subst hnil
    simp [splitAt]
  · have hnpos : l.length ≠ npos := by
      intro hEq; rw [hEq] at hlen; exact lt_irrefl _ hlen
    by_cases hb : body = []
    · subst hb
      have hc3 : l.length + 1 = (l ++ [c]).length := by simp
      simp only [splitAt]
      rw [if_neg h0, if_neg hnpos, if_pos hc3,
        List.take_append_of_le_length (le_refl _), List.take_length]
    · have hpos : 0 < body.length := List.length_pos.mpr hb
      have hc3 : ¬ (l.length + 1 = (l ++ c :: body).length) := by
        simp only [List.length_append, List.length_cons]; omega
      have hc4 : ¬ (l.length + 1 > (l ++ c :: body).length) := by
        simp only [List.length_append, List.length_cons]; omega
      simp only [splitAt]
      rw [if_neg h0, if_neg hnpos, if_neg hc3, if_neg hc4,
        List.take_append_of_le_length (le_refl _), List.take_length]
      have hre : l ++ c :: body = (l ++ [c]) ++ body := by simp
      have hix : l.length + 1 = (l ++ [c]).length := by simp
      rw [hre, hix, List.drop_left]

theorem splitFirstLine_sep (l body : List Char) (hnl : '\n' ∉ l)
    (hlen : l.length < npos) :
    splitFirstLine (l ++ '\n' :: body) = (l, body) := by
  rw [splitFirstLine, splitOnFirst,
    find_first_of_append_cons '\n' body l hnl hlen,
    splitAt_at_sep l '\n' body hlen]

theorem sTypeFromName_mem {name : List Char}
    (h : s2lower name ∈ validTypeNames) :
    sTypeFromName name = .ok (glTypeOfName (s2lower name)) := by
  simp only [validTypeNames, List.mem_cons, List.not_mem_nil, or_false] at h
  rcases h with h | h | h | h | h | h <;>
    simp +decide [sTypeFromName, glTypeOfName, h]

theorem sTypeFromName_not_mem {name : List Char}
    (h : s2lower name ∉ validTypeNames) :
    sTypeFromName name = .error .unknownShaderType := by
  simp only [validTypeNames, List.mem_cons, List.not_mem_nil, or_false,
    not_or] at h
  obtain ⟨h1, h2, h3, h4, h5, h6⟩ := h
  simp only [sTypeFromName, if_neg h1, if_neg h2, if_neg h3, if_neg h4,
    if_neg h5, if_neg h6]

/-- C4: (success) for every source text made of optional leading whitespace,
the header `#type X` — with arbitrary non-newline whitespace around a stage
name `X` whose lowercase form is one of the six known names — a newline and
a body, `createShader` resolves the stage constant for `X` (case
insensitively) and returns the entire remaining text as the shader body;
(completeness) for every contents whatsoever, `createShader` succeeds
exactly when the first line of the stripped source passes the `#type `
prefix check and its trimmed, lowercased type name is one of the six known
names — on any other first line (the empty file included) it fails with a
malformed-header or unknown-type error. -/
theorem createShader_spec :
    (∀ lead pad1 name pad2 body : List Char,
      (∀ c ∈ lead, isWhiteSpace c = true) →
      (∀ c ∈ pad1, isWhiteSpace c = true ∧ c ≠ '\n') →
      (∀ c ∈ pad2, isWhiteSpace c = true ∧ c ≠ '\n') →
      s2lower name ∈ validTypeNames →
      6 + pad1.length + name.length + pad2.length < npos →
      createShader (lead ++ typeTag ++ pad1 ++ name ++ pad2 ++ '\n' :: body)
        = .ok (glTypeOfName (s2lower name), body))
    ∧ (∀ contents : List Char,
        (∃ r, createShader contents = .ok r) ↔ validHeader contents) := by
  constructor
  · intro lead pad1 name pad2 body hlead hp1 hp2 hmem hlen
    have hnws := name_chars_not_ws hmem
    have h2 := name_length_ge_two hmem
    have hform : lead ++ typeTag ++ pad1 ++ name ++ pad2 ++ '\n' :: body
        = lead ++ ((typeTag ++ (pad1 ++ (name ++ pad2))) ++ '\n' :: body) := by
      simp [List.append_assoc]
    rw [hform]
    have hstrip : lStripNewlines
        (lead ++ ((typeTag ++ (pad1 ++ (name ++ pad2))) ++ '\n' :: body))
        = (typeTag ++ (pad1 ++ (name ++ pad2))) ++ '\n' :: body := by
      rw [lStripNewlines, dropWhile_append_of_forall hlead]
      simp +decide [typeTag, List.dropWhile_cons]
    have hnl : '\n' ∉ typeTag ++ (pad1 ++ (name ++ pad2)) := by
      intro hmemnl
      rcases List.mem_append.mp hmemnl with h | h
      · revert h; decide
      · rcases List.mem_append.mp h with h | h
        · exact (hp1 _ h).2 rfl
        · rcases List.mem_append.mp h with h | h
          · exact absurd (hnws _ h) (by decide)
          · exact (hp2 _ h).2 rfl
    have hlenl : (typeTag ++ (pad1 ++ (name ++ pad2))).length < npos := by
      simp only [List.length_append]
      have h6 : typeTag.length = 6 := rfl
      omega
    have hsplit := splitFirstLine_sep _ body hnl hlenl
    have htake : (typeTag ++ (pad1 ++ (name ++ pad2))).take 6 = typeTag := by
      rw [show (6 : Nat) = typeTag.length from rfl, List.take_left]
    have hdrop6 : (typeTag ++ (pad1 ++ (name ++ pad2))).drop 6
        = pad1 ++ (name ++ pad2) := by
      rw [show (6 : Nat) = typeTag.length from rfl, List.drop_left]
    have hstripws : stripWhitespace (pad1 ++ (name ++ pad2)) = name := by
      have hsw := stripWhitespace_pad pad1 name pad2
        (fun c hc => (hp1 c hc).1) (fun c hc => (hp2 c hc).1) hnws h2
      simpa [List.append_assoc] using hsw
    simp only [createShader, hstrip, hsplit, htake, hdrop6, hstripws,
      sTypeFromName_mem hmem]
    simp
  · intro contents
    constructor
    · rintro ⟨r, hr⟩
      by_cases h1 :
          (splitFirstLine (lStripNewlines contents)).1.take 6 = typeTag
      · by_cases h2 : s2lower (stripWhitespace
            ((splitFirstLine (lStripNewlines contents)).1.drop 6))
            ∈ validTypeNames
        · exact ⟨h1, h2⟩
        · simp only [createShader, if_pos h1,
            sTypeFromName_not_mem h2] at hr
          cases hr
      · simp only [createShader, if_neg h1] at hr
        cases hr
    · rintro ⟨h1, h2⟩
      refine ⟨(glTypeOfName (s2lower (stripWhitespace
          ((splitFirstLine (lStripNewlines contents)).1.drop 6))),
        (splitFirstLine (lStripNewlines contents)).2), ?_⟩
      simp only [createShader, if_pos h1, sTypeFromName_mem h2]

/-- Witness for C4: the file
`"\n #type  Vertex \t\n" ++ body` parses to the vertex stage with body
`"body"`, through the success half of `createShader_spec` at concrete
inputs. -/
theorem createShader_spec_witness :
    createShader (['\n', ' '] ++ typeTag ++ [' '] ++ "Vertex".toList
        ++ [' ', '\t'] ++ '\n' :: "body".toList)
      = .ok (glTypeOfName (s2lower "Vertex".toList), "body".toList) :=
  createShader_spec.1 ['\n', ' '] [' '] "Vertex".toList [' ', '\t']
    "body".toList (by decide) (by decide) (by decide) (by decide)
    (by norm_num [npos])

/-- Witness for C10 on `"ab:cd"` with separator `:` (present) and
separator `x` (absent). -/
theorem splitOnFirst_spec_witness :
    ("ab:cd".toList.length < npos
      ∧ (':' ∉ (splitOnFirst "ab:cd".toList ':').1
          ∧ (splitOnFirst "ab:cd".toList ':').1
              ++ ':' :: (splitOnFirst "ab:cd".toList ':').2
            = "ab:cd".toList))
      ∧ splitOnFirst "ab:cd".toList 'x' = ("ab:cd".toList, []) :=
  ⟨⟨by norm_num [npos],
    (splitOnFirst_spec "ab:cd".toList ':' (by norm_num [npos])).1
      (by decide)⟩,
   (splitOnFirst_spec "ab:cd".toList 'x' (by norm_num [npos])).2
     (by decide)⟩

end Game
